import Mathlib

/-!
Shallow embedding of the `bipbuffer` crate (`src/lib.rs`, `src/error.rs`):
a Bip-Buffer tracking two committed regions A and B plus one reservation
over a fixed backing store. Rust `usize` indices are modelled as `Nat`;
every subtraction performed by the code is shown (under the state
invariant) not to underflow, so truncated `Nat` subtraction coincides
with the source's `usize` arithmetic on the states the proofs quantify
over. The generic element type `T : Default` is modelled by a type
parameter `α` together with an explicit default element passed to `new`.
-/

/-- Embeds `ErrorKind` from `src/error.rs`: the only failure kind is
`NoSpace`, raised by `reserve`. -/
inductive ErrorKind where
  | NoSpace
  deriving DecidableEq, Repr

/-- Embeds `Error` from `src/error.rs`: a wrapper holding the `ErrorKind`. -/
structure Error where
  kind : ErrorKind
  deriving DecidableEq, Repr

/-- Embeds `struct BipBuffer<T>` from `src/lib.rs`: the backing store plus
the five index pairs (region A, region B, and the reservation). The Rust
`Vec<T>` backing store is modelled as a `List α`; its length is the
capacity. -/
structure BipBuffer (α : Type) where
  buffer : List α
  a_start : Nat
  a_end : Nat
  b_start : Nat
  b_end : Nat
  reserve_start : Nat
  reserve_end : Nat
  deriving DecidableEq, Repr

namespace BipBuffer

/-- Embeds `BipBuffer::new(length)`: a backing store of `length`
default-initialized slots (the `Default::default()` element is the
explicit argument `d`), all six indices zero. -/
def new (length : Nat) (d : α) : BipBuffer α :=
  { buffer := List.replicate length d
    a_start := 0, a_end := 0, b_start := 0, b_end := 0
    reserve_start := 0, reserve_end := 0 }

/-- Embeds `BipBuffer::len()`: the size of the backing store. In the
source this is `self.buffer.capacity()`; the vector is built by pushing
exactly `length` elements into a vector allocated with capacity `length`
and is never resized, so it is the backing store's length. -/
def len (b : BipBuffer α) : Nat :=
  b.buffer.length

/-- Embeds `BipBuffer::clear()`: resets all six indices; the backing
store contents are untouched. -/
def clear (b : BipBuffer α) : BipBuffer α :=
  { b with a_start := 0, a_end := 0, b_start := 0, b_end := 0
           reserve_start := 0, reserve_end := 0 }

/-- Embeds the shared tail of `BipBuffer::reserve` after the candidate
block `(start, free_space)` has been selected: fail with `NoSpace` when
`free_space == 0`, otherwise record the reservation clipped to
`min(free_space, length)`. Returns the post state together with the
result; on success the slice `&mut self.buffer[reserve_start..reserve_end]`
is represented by its start index and length. -/
def reserveAt (b : BipBuffer α) (start free_space length : Nat) :
    BipBuffer α × Except Error (Nat × Nat) :=
  if free_space = 0 then
    (b, Except.error ⟨ErrorKind.NoSpace⟩)
  else
    let reserve_length := min free_space length
    ({ b with reserve_start := start, reserve_end := start + reserve_length },
     Except.ok (start, reserve_length))

/-- Embeds `BipBuffer::reserve(length)`: candidate selection exactly as in
the source — the gap after B when B is non-empty, else after A when
`space_after_a >= a_start`, else wrap to the front — followed by the
`reserveAt` tail. -/
def reserve (b : BipBuffer α) (length : Nat) :
    BipBuffer α × Except Error (Nat × Nat) :=
  if b.b_end - b.b_start > 0 then
    reserveAt b b.b_end (b.a_start - b.b_end) length
  else
    let space_after_a := b.len - b.a_end
    if space_after_a ≥ b.a_start then
      reserveAt b b.a_end space_after_a length
    else
      reserveAt b 0 b.a_start length

/-- Embeds `BipBuffer::commit(length)`: `length = 0` only clears the
reservation; otherwise `to_commit = min(length, reserved size)` is folded
into A (fresh region or same-region extension) or into B (front-wrap
case), and the reservation is cleared. -/
def commit (b : BipBuffer α) (length : Nat) : BipBuffer α :=
  if length = 0 then
    { b with reserve_start := 0, reserve_end := 0 }
  else
    let to_commit := min length (b.reserve_end - b.reserve_start)
    let b' :=
      if b.a_end - b.a_start = 0 ∧ b.b_end - b.b_start = 0 then
        { b with a_start := b.reserve_start
                 a_end := b.reserve_start + to_commit }
      else if b.reserve_start = b.a_end then
        { b with a_end := b.a_end + to_commit }
      else
        { b with b_end := b.b_end + to_commit }
    { b' with reserve_start := 0, reserve_end := 0 }

/-- Embeds `BipBuffer::read()`: `None` when region A is empty, otherwise
the contiguous slice `&mut self.buffer[self.a_start..self.a_end]`,
modelled by its element list. -/
def read (b : BipBuffer α) : Option (List α) :=
  match b.a_end - b.a_start with
  | 0 => none
  | _ => some ((b.buffer.drop b.a_start).take (b.a_end - b.a_start))

/-- Embeds `BipBuffer::decommit(length)`: when `length` covers all of A,
promote B into A and empty B; otherwise advance A's start by `length`. -/
def decommit (b : BipBuffer α) (length : Nat) : BipBuffer α :=
  if length ≥ b.a_end - b.a_start then
    { b with a_start := b.b_start, a_end := b.b_end, b_start := 0, b_end := 0 }
  else
    { b with a_start := b.a_start + length }

/-- Embeds `BipBuffer::committed_len()`. -/
def committed_len (b : BipBuffer α) : Nat :=
  b.a_end - b.a_start + b.b_end - b.b_start

/-- Embeds `BipBuffer::reserved_len()`. -/
def reserved_len (b : BipBuffer α) : Nat :=
  b.reserve_end - b.reserve_start

/-- Embeds `BipBuffer::is_empty()`. -/
def is_empty (b : BipBuffer α) : Bool :=
  b.reserved_len = 0 && b.committed_len = 0

/-- Models the caller writing element `v` through the returned mutable
slice at slice-relative index `i`, i.e. `reserved[i] = v` in the Rust
examples: index `off + i` of the backing store is overwritten. `setRange`
performs one such write per element of `vs`, at consecutive indices
starting at `off`. -/
def setRange (l : List α) (off : Nat) : List α → List α
  | [] => l
  | v :: vs => setRange (l.set off v) (off + 1) vs

/-- Models a sequence of caller writes through a reserved slice starting
at absolute index `off` of the backing store. -/
def writeAt (b : BipBuffer α) (off : Nat) (vs : List α) : BipBuffer α :=
  { b with buffer := setRange b.buffer off vs }

/-- One call of the public mutating API, for quantifying over call
sequences. -/
inductive Op where
  | reserve (length : Nat)
  | commit (length : Nat)
  | read
  | decommit (length : Nat)
  | clear
  deriving DecidableEq, Repr

/-- The state reached after one API call: `reserve` leaves the state
unchanged on failure (the source returns before mutating), `read` does
not change any index. -/
def step (b : BipBuffer α) : Op → BipBuffer α
  | Op.reserve n => (reserve b n).1
  | Op.commit n => commit b n
  | Op.read => b
  | Op.decommit n => decommit b n
  | Op.clear => clear b

/-- The state after a sequence of API calls starting from a freshly
constructed buffer. -/
def run (length : Nat) (d : α) (ops : List Op) : BipBuffer α :=
  ops.foldl step (new length d)

/-- The write-placement policy as worded by the specification (claims C2
and C5), independent of the code: the candidate `(start, free)` block is
the gap between B's end and A's start when B is non-empty, else the space
after A when `capacity - a_end ≥ a_start`, else the space before A
starting at the front. This definition follows the spec's words and is
compared against `reserve` (the code) in the refinement theorems. -/
def specCandidate (b : BipBuffer α) : Nat × Nat :=
  if b.b_start < b.b_end then
    (b.b_end, b.a_start - b.b_end)
  else if b.len - b.a_end ≥ b.a_start then
    (b.a_end, b.len - b.a_end)
  else
    (0, b.a_start)

/-- Scenario of claim C7 (the `reserve_after_full_cycle` test): fresh
buffer of capacity 4. -/
def demoState0 : BipBuffer Nat := new 4 0

/-- Scenario of claim C7: after `reserve(4)`. -/
def demoState1 : BipBuffer Nat := (reserve demoState0 4).1

/-- Scenario of claim C7: after writing `[7, 22, 218, 56]` through the
reserved slice (which starts at index 0). -/
def demoState2 : BipBuffer Nat := writeAt demoState1 0 [7, 22, 218, 56]

/-- Scenario of claim C7: after `commit(4)`. -/
def demoState3 : BipBuffer Nat := commit demoState2 4

/-- Scenario of claim C7: after `decommit(2)`. -/
def demoState4 : BipBuffer Nat := decommit demoState3 2

/-- Scenario of claim C7: after the second `reserve(4)`, which wraps to
the front and grants only 2 slots. -/
def demoState5 : BipBuffer Nat := (reserve demoState4 4).1

/-- Scenario of claim C7: after writing `[49, 81]` through the wrapped
reserved slice at index 0. -/
def demoState6 : BipBuffer Nat := writeAt demoState5 0 [49, 81]

/-- Scenario of claim C7: after `commit(2)` (the front-wrap commit that
creates region B). -/
def demoState7 : BipBuffer Nat := commit demoState6 2

/-- Scenario of claim C7: after `decommit(2)` (promotion of B into A). -/
def demoState8 : BipBuffer Nat := decommit demoState7 2

/-- A concrete state with an outstanding reservation `[0, 2)` over empty
regions, used to witness the commit and decommit theorems. -/
def wRes : BipBuffer Nat :=
  { buffer := [3, 1, 4, 1], a_start := 0, a_end := 0, b_start := 0,
    b_end := 0, reserve_start := 0, reserve_end := 2 }

/-- The invariant asserted by the specification (claim C1): index pairs
ordered and bounded by the capacity, B non-empty only while A is
non-empty, A, B and the reservation pairwise non-overlapping, and
`committed_len + reserved_len ≤ capacity`. -/
def ClaimInv (b : BipBuffer α) : Prop :=
  b.a_start ≤ b.a_end ∧ b.a_end ≤ b.len ∧
  b.b_start ≤ b.b_end ∧ b.b_end ≤ b.len ∧
  b.reserve_start ≤ b.reserve_end ∧ b.reserve_end ≤ b.len ∧
  (b.b_start < b.b_end → b.a_start < b.a_end) ∧
  (∀ i, b.a_start ≤ i → i < b.a_end → ¬ (b.b_start ≤ i ∧ i < b.b_end)) ∧
  (∀ i, b.reserve_start ≤ i → i < b.reserve_end →
    ¬ (b.a_start ≤ i ∧ i < b.a_end) ∧ ¬ (b.b_start ≤ i ∧ i < b.b_end)) ∧
  b.committed_len + b.reserved_len ≤ b.len

/-- The inductive strengthening of `ClaimInv` actually preserved by every
API call: B always starts at 0, B lies entirely below A, and an
outstanding reservation is either over an empty pair of regions, starts
exactly at A's end with B empty, or lies in the gap between B's end and
A's start. -/
def Inv (b : BipBuffer α) : Prop :=
  b.b_start = 0 ∧
  b.b_end ≤ b.a_start ∧
  b.a_start ≤ b.a_end ∧ b.a_end ≤ b.len ∧
  b.reserve_start ≤ b.reserve_end ∧ b.reserve_end ≤ b.len ∧
  (0 < b.b_end → b.a_start < b.a_end) ∧
  (b.reserve_start < b.reserve_end →
    (b.a_start = b.a_end ∧ b.b_end = 0) ∨
    (b.reserve_start = b.a_end ∧ b.b_end = 0) ∨
    (b.reserve_end ≤ b.a_start ∧ b.b_end = b.reserve_start))

end BipBuffer

namespace BipBuffer

theorem inv_new (length : Nat) (d : α) : Inv (new length d) := by
  simp [Inv, new]

theorem inv_clear (b : BipBuffer α) (h : Inv b) : Inv (clear b) := by
  obtain ⟨buf, as0, ae, bs, be, rs, re⟩ := b
  simp [Inv, clear, len] at *

theorem inv_reserve (b : BipBuffer α) (n : Nat) (h : Inv b) :
    Inv (reserve b n).1 := by
  obtain ⟨buf, as0, ae, bs, be, rs, re⟩ := b
  simp [Inv, len] at h
  simp only [reserve, reserveAt, len]
  split <;> [skip; split] <;> split <;> simp [Inv, len] <;> omega

theorem inv_commit (b : BipBuffer α) (n : Nat) (h : Inv b) :
    Inv (commit b n) := by
  obtain ⟨buf, as0, ae, bs, be, rs, re⟩ := b
  simp [Inv, len] at h
  simp only [commit, len]
  split
  · simp [Inv, len]; omega
  · split <;> [skip; split] <;> simp [Inv, len] <;> omega

theorem inv_decommit (b : BipBuffer α) (n : Nat) (h : Inv b) :
    Inv (decommit b n) := by
  obtain ⟨buf, as0, ae, bs, be, rs, re⟩ := b
  simp [Inv, len] at h
  simp only [decommit, len]
  split <;> simp [Inv, len] <;> omega

theorem inv_step (b : BipBuffer α) (op : Op) (h : Inv b) : Inv (step b op) := by
  cases op with
  | reserve n => exact inv_reserve b n h
  | commit n => exact inv_commit b n h
  | read => exact h
  | decommit n => exact inv_decommit b n h
  | clear => exact inv_clear b h

theorem inv_run (length : Nat) (d : α) (ops : List Op) :
    Inv (run length d ops) := by
  suffices h : ∀ (b : BipBuffer α), Inv b → Inv (ops.foldl step b) from
    h (new length d) (inv_new length d)
  induction ops with
  | nil => exact fun b hb => hb
  | cons op ops ih => exact fun b hb => ih (step b op) (inv_step b op hb)

theorem inv_implies_claimInv (b : BipBuffer α) (h : Inv b) : ClaimInv b := by
  obtain ⟨hbs, hba, haa, hac, hrr, hrc, hbne, hres⟩ := h
  refine ⟨haa, hac, ?_, ?_, hrr, hrc, ?_, ?_, ?_, ?_⟩
  · omega
  · omega
  · omega
  · intro i _ _; omega
  · intro i _ _
    constructor <;> omega
  · simp only [committed_len, reserved_len]
    omega

theorem length_setRange (vs : List α) (l : List α) (off : Nat) :
    (setRange l off vs).length = l.length := by
  induction vs generalizing l off with
  | nil => rfl
  | cons v vs ih => simp [setRange, ih]

theorem len_step (b : BipBuffer α) (op : Op) : (step b op).len = b.len := by
  obtain ⟨buf, as0, ae, bs, be, rs, re⟩ := b
  cases op <;>
    simp only [step, reserve, reserveAt, commit, decommit, clear, len] <;>
    (repeat' split) <;> rfl

theorem len_foldl (ops : List Op) (b : BipBuffer α) :
    (ops.foldl step b).len = b.len := by
  induction ops generalizing b with
  | nil => rfl
  | cons op ops ih => rw [List.foldl_cons, ih, len_step]

/-- Claim C1: for every capacity and every sequence of
reserve/commit/read/decommit/clear calls from a fresh buffer, the five
index pairs are ordered and bounded by the capacity, region B is
non-empty only while region A is, A, B and the outstanding reservation
are pairwise non-overlapping, and `committed_len + reserved_len ≤
capacity` always holds. -/
theorem claim1_invariants_always_hold (n : Nat) (d : α) (ops : List Op) :
    ClaimInv (run n d ops) :=
  inv_implies_claimInv _ (inv_run n d ops)

/-- Claim C2: `reserve` picks its candidate write block by the spec's
priority — the gap after B when B is non-empty, else after A when
`capacity - a_end ≥ a_start`, else wrapped to the front — failing only
when the candidate's free size is zero and otherwise clipping to
`min(free, length)`. -/
theorem claim2_reserve_placement_policy (b : BipBuffer α) (n : Nat) :
    reserve b n =
      if (specCandidate b).2 = 0 then
        (b, Except.error ⟨ErrorKind.NoSpace⟩)
      else
        ({ b with reserve_start := (specCandidate b).1,
                  reserve_end := (specCandidate b).1 + min (specCandidate b).2 n },
         Except.ok ((specCandidate b).1, min (specCandidate b).2 n)) := by
  obtain ⟨buf, as0, ae, bs, be, rs, re⟩ := b
  simp only [reserve, reserveAt, specCandidate, len]
  split_ifs <;> first | rfl | (exfalso; omega)

/-- Claim C3: with a positive requested length, `commit` folds
`to_commit = min(length, reserved size)` elements — into a fresh region A
when both regions are empty, onto A's end when the reservation starts
there, and onto B's end otherwise — and clears the reservation, leaving
the backing store untouched. -/
theorem claim3_commit_fold (b : BipBuffer α) (n : Nat) (hn : 0 < n)
    (hr : 0 < b.reserved_len) :
    (commit b n).reserve_start = 0 ∧ (commit b n).reserve_end = 0 ∧
    (commit b n).buffer = b.buffer ∧
    (b.a_end - b.a_start = 0 ∧ b.b_end - b.b_start = 0 →
      (commit b n).a_start = b.reserve_start ∧
      (commit b n).a_end = b.reserve_start + min n b.reserved_len ∧
      (commit b n).b_start = b.b_start ∧ (commit b n).b_end = b.b_end) ∧
    (¬ (b.a_end - b.a_start = 0 ∧ b.b_end - b.b_start = 0) →
      b.reserve_start = b.a_end →
      (commit b n).a_start = b.a_start ∧
      (commit b n).a_end = b.a_end + min n b.reserved_len ∧
      (commit b n).b_start = b.b_start ∧ (commit b n).b_end = b.b_end) ∧
    (¬ (b.a_end - b.a_start = 0 ∧ b.b_end - b.b_start = 0) →
      b.reserve_start ≠ b.a_end →
      (commit b n).a_start = b.a_start ∧ (commit b n).a_end = b.a_end ∧
      (commit b n).b_start = b.b_start ∧
      (commit b n).b_end = b.b_end + min n b.reserved_len) := by
  obtain ⟨buf, as0, ae, bs, be, rs, re⟩ := b
  simp only [commit, reserved_len]
  split_ifs <;> simp_all

/-- Witness for claim C3: committing 1 element of the reservation
`[0, 2)` over empty regions makes A the region `[0, 1)`. -/
theorem claim3_commit_fold_witness :
    (commit wRes 1).a_start = wRes.reserve_start ∧
    (commit wRes 1).a_end = wRes.reserve_start + min 1 wRes.reserved_len ∧
    (commit wRes 1).b_start = wRes.b_start ∧
    (commit wRes 1).b_end = wRes.b_end :=
  (claim3_commit_fold wRes 1 (by decide) (by decide)).2.2.2.1 (by decide)

/-- Claim C4: `decommit(length)` advances A's start by exactly `length`
when `length` is below A's size (B untouched), and otherwise promotes B's
bounds into A, resets B to empty and ignores the excess; it never
fails (it is a total function on every state). -/
theorem claim4_decommit_advance_or_promote (b : BipBuffer α) (n : Nat) :
    (n < b.a_end - b.a_start →
      decommit b n = { b with a_start := b.a_start + n }) ∧
    (b.a_end - b.a_start ≤ n →
      decommit b n = { b with a_start := b.b_start, a_end := b.b_end,
                              b_start := 0, b_end := 0 }) := by
  obtain ⟨buf, as0, ae, bs, be, rs, re⟩ := b
  simp only [decommit]
  constructor <;> intro h <;> split_ifs <;> first | rfl | (exfalso; omega)

/-- Witness for claim C4: decommitting 2 of the 4 committed elements of
the C7 scenario advances A's start by exactly 2. -/
theorem claim4_decommit_witness :
    decommit demoState3 2 = { demoState3 with a_start := demoState3.a_start + 2 } :=
  (claim4_decommit_advance_or_promote demoState3 2).1 (by decide)

/-- Claim C5: `reserve` fails with `NoSpace` exactly when the candidate
free block (per the placement policy) is empty, leaving the state
unchanged on failure; on success the granted slice has exactly
`min(free, length)` elements, which equals `reserved_len` afterwards. -/
theorem claim5_nospace_iff_zero_free (b : BipBuffer α) (n : Nat) :
    ((reserve b n).2 = Except.error ⟨ErrorKind.NoSpace⟩ ↔
      (specCandidate b).2 = 0) ∧
    ((specCandidate b).2 = 0 → (reserve b n).1 = b) ∧
    ∀ s l, (reserve b n).2 = Except.ok (s, l) →
      l = min (specCandidate b).2 n ∧ ((reserve b n).1).reserved_len = l := by
  obtain ⟨buf, as0, ae, bs, be, rs, re⟩ := b
  simp only [reserve, reserveAt, specCandidate, len, reserved_len]
  split_ifs <;> simp_all

/-- Witness for claim C5: on a fresh buffer of capacity 4, `reserve(3)`
grants exactly `min(4, 3) = 3` slots and `reserved_len` becomes 3. -/
theorem claim5_nospace_witness :
    3 = min (specCandidate demoState0).2 3 ∧
    ((reserve demoState0 3).1).reserved_len = 3 :=
  (claim5_nospace_iff_zero_free demoState0 3).2.2 0 3 (by rfl)

/-- Claim C6: `read` exposes exactly region A `[a_start, a_end)` as one
contiguous slice (element `i` of the result is backing-store element
`a_start + i`), returns no data exactly when A is empty, and in
particular returns no data on a fresh buffer and after `clear`. -/
theorem claim6_read_exposes_region_a (b : BipBuffer α)
    (h1 : b.a_start ≤ b.a_end) (h2 : b.a_end ≤ b.len) :
    (read b = none ↔ b.a_end - b.a_start = 0) ∧
    (∀ l, read b = some l →
      l.length = b.a_end - b.a_start ∧
      ∀ i, i < l.length → l[i]? = b.buffer[b.a_start + i]?) ∧
    (∀ (m : Nat) (d : α), read (new m d) = none) ∧
    read (clear b) = none := by
  obtain ⟨buf, as0, ae, bs, be, rs, re⟩ := b
  simp only [len] at h2
  refine ⟨?_, ?_, ?_, ?_⟩
  · simp only [read]
    split <;> simp_all
  · intro l hl
    simp only [read] at hl
    split at hl
    · exact absurd hl (by simp)
    · obtain rfl : l = (buf.drop as0).take (ae - as0) := by
        simpa using hl.symm
      constructor
      · simp
        omega
      · intro i hi
        simp only [List.length_take, List.length_drop] at hi
        rw [List.getElem?_take_of_lt (by omega), List.getElem?_drop]
  · intro m d
    simp [read, new]
  · simp [read, clear]

/-- Witness for claim C6: in the C7 scenario state with A = `[2, 4)`,
`read` returns the two elements at indices 2 and 3. -/
theorem claim6_read_witness :
    ([218, 56] : List Nat).length = demoState7.a_end - demoState7.a_start ∧
    ∀ i, i < ([218, 56] : List Nat).length →
      ([218, 56] : List Nat)[i]? = demoState7.buffer[demoState7.a_start + i]? :=
  (claim6_read_exposes_region_a demoState7 (by decide) (by decide)).2.1
    [218, 56] (by rfl)

/-- Claim C7: the capacity-4 wrap scenario — fill with `[7, 22, 218, 56]`,
commit 4, decommit 2, then `reserve(4)` grants exactly 2 slots at index 0;
after writing `[49, 81]` and committing 2, `read` still returns
`[218, 56]`, and after decommitting those 2 it returns `[49, 81]`. -/
theorem claim7_wrap_scenario :
    (reserve demoState4 4).2 = Except.ok (0, 2) ∧
    read demoState7 = some [218, 56] ∧
    read demoState8 = some [49, 81] :=
  ⟨rfl, rfl, rfl⟩

/-- Claim C8: `commit(0)` is a pure cancellation — the reservation is
cleared and nothing else changes: both regions keep their bounds,
`committed_len` is unchanged and the backing store is untouched. -/
theorem claim8_commit_zero_cancellation (b : BipBuffer α) :
    commit b 0 = { b with reserve_start := 0, reserve_end := 0 } ∧
    (commit b 0).reserved_len = 0 ∧
    (commit b 0).committed_len = b.committed_len ∧
    (commit b 0).buffer = b.buffer := by
  obtain ⟨buf, as0, ae, bs, be, rs, re⟩ := b
  simp [commit, reserved_len, committed_len]

/-- Claim C9: a buffer constructed with capacity `n` reports capacity
exactly `n` (the backing store's length), and the capacity is unchanged
by every sequence of subsequent API calls. -/
theorem claim9_capacity_constant (n : Nat) (d : α) (ops : List Op) :
    (new n d).len = n ∧ (run n d ops).len = n := by
  have hnew : (new n d).len = n := by simp [new, len]
  exact ⟨hnew, by rw [run, len_foldl, hnew]⟩

/-- Claim C10: `decommit` never touches the reservation bounds, so a
reservation granted before a decommit — including one that promotes B
into A — is still outstanding, with the same `reserved_len`,
afterwards. -/
theorem claim10_decommit_keeps_reservation (b : BipBuffer α) (n : Nat)
    (h : 0 < b.reserved_len) :
    (decommit b n).reserve_start = b.reserve_start ∧
    (decommit b n).reserve_end = b.reserve_end ∧
    (decommit b n).reserved_len = b.reserved_len := by
  obtain ⟨buf, as0, ae, bs, be, rs, re⟩ := b
  simp only [decommit, reserved_len]
  split <;> simp

/-- Witness for claim C10: decommitting 1 element leaves the outstanding
reservation `[0, 2)` of `wRes` untouched. -/
theorem claim10_decommit_witness :
    (decommit wRes 1).reserve_start = wRes.reserve_start ∧
    (decommit wRes 1).reserve_end = wRes.reserve_end ∧
    (decommit wRes 1).reserved_len = wRes.reserved_len :=
  claim10_decommit_keeps_reservation wRes 1 (by decide)

end BipBuffer
